import Mathlib

/-!
GrayScale: the fragment shaders and the frame driver of `src/main.cpp`

The three fragment programs of `main.cpp` are embedded as functions on colour
vectors over an arbitrary linearly ordered field with a floor function, so the
same definitions run on `ℚ` and are reasoned about on `ℝ`; this is the shader
in exact arithmetic.  The hue-shift program is embedded a second time over the
binary32 values (`rgbToHsv32`, `hsvToRgb32`, `colorFilterMain32`), with every
arithmetic operation rounded to the nearest `float`.  The GLSL built-ins
used by the shaders (`step`, `mix`, `abs`, `fract`, `clamp`, `mod`, `dot`,
`min`) follow their definitions in the GLSL 3.30 specification.  The host
program `main` is embedded as a function from the answers of its collaborators
(GLFW, GLEW, stb_image, the framebuffer status) to the list of calls it makes
and its exit code.
-/

namespace GrayScale

/-! ## Vectors -/

/-- GLSL `vec3`. -/
structure Vec3 (α : Type) where
  x : α
  y : α
  z : α
deriving DecidableEq, Repr

/-- GLSL `vec4`; the colour accessors `r g b a` are the components `x y z w`. -/
structure Vec4 (α : Type) where
  x : α
  y : α
  z : α
  w : α
deriving DecidableEq, Repr

section Shaders

variable {α : Type} [LinearOrderedField α] [FloorRing α]

/-- The swizzle `color.rgb`. -/
def Vec4.rgb (c : Vec4 α) : Vec3 α := ⟨c.x, c.y, c.z⟩

/-- The swizzle `color.a`. -/
def Vec4.a (c : Vec4 α) : α := c.w

/-! ## GLSL built-ins -/

/-- GLSL `step(edge, x)`: `0.0` if `x < edge`, else `1.0`. -/
def step (edge x : α) : α := if x < edge then 0 else 1

/-- GLSL `mix(x, y, a)` on scalars: `x * (1 - a) + y * a`. -/
def mix (x y a : α) : α := x * (1 - a) + y * a

/-- GLSL `mix` on `vec4` with a scalar weight. -/
def mix4 (x y : Vec4 α) (a : α) : Vec4 α :=
  ⟨mix x.x y.x a, mix x.y y.y a, mix x.z y.z a, mix x.w y.w a⟩

/-- GLSL `mix` on `vec3` with a scalar weight. -/
def mix3 (x y : Vec3 α) (a : α) : Vec3 α :=
  ⟨mix x.x y.x a, mix x.y y.y a, mix x.z y.z a⟩

/-- GLSL `fract(x)`: `x - floor(x)`. -/
def fract (x : α) : α := x - (⌊x⌋ : α)

/-- GLSL `mod(x, y)`: `x - y * floor(x / y)`. -/
def mod (x y : α) : α := x - y * (⌊x / y⌋ : α)

/-- GLSL `clamp(x, lo, hi)`: `min(max(x, lo), hi)`. -/
def clamp (x lo hi : α) : α := min (max x lo) hi

/-- GLSL `dot` on `vec3`. -/
def dot (u v : Vec3 α) : α := u.x * v.x + u.y * v.y + u.z * v.z

/-! ## Grayscale fragment program (`fragmentShaderSourceGrayscale`) -/

/-- The body of `main` in the grayscale fragment program, as a function of the
colour sampled by `texture(ourTexture, TexCoord)`. -/
def grayscaleMain (color : Vec4 α) : Vec4 α :=
  let gray := dot color.rgb ⟨0.299, 0.587, 0.114⟩
  ⟨gray, gray, gray, color.a⟩

/-! ## Hue-shift fragment program (`fragmentShaderSourceColorFilter`) -/

/-- The vector `p` of `rgbToHsv`. -/
def rgbToHsv_p (c : Vec3 α) : Vec4 α :=
  let K : Vec4 α := ⟨0.0, -1.0 / 3.0, 2.0 / 3.0, -1.0⟩
  mix4 ⟨c.z, c.y, K.w, K.z⟩ ⟨c.y, c.z, K.x, K.y⟩ (step c.z c.y)

/-- The vector `q` of `rgbToHsv`. -/
def rgbToHsv_q (c : Vec3 α) : Vec4 α :=
  let p := rgbToHsv_p c
  mix4 ⟨p.x, p.y, p.w, c.x⟩ ⟨c.x, p.y, p.z, p.x⟩ (step p.x c.x)

/-- The scalar `d` of `rgbToHsv`. -/
def rgbToHsv_d (c : Vec3 α) : α :=
  let q := rgbToHsv_q c
  q.x - min q.w q.y

/-- The constant `e` of `rgbToHsv`. -/
def rgbToHsv_e : α := 1.0e-10

/-- The denominator of the hue component in `rgbToHsv`. -/
def rgbToHsv_hueDen (c : Vec3 α) : α := 6.0 * rgbToHsv_d c + rgbToHsv_e

/-- The denominator of the saturation component in `rgbToHsv`. -/
def rgbToHsv_satDen (c : Vec3 α) : α := (rgbToHsv_q c).x + rgbToHsv_e

/-- GLSL function `rgbToHsv`. -/
def rgbToHsv (c : Vec3 α) : Vec3 α :=
  let q := rgbToHsv_q c
  let d := rgbToHsv_d c
  ⟨|q.z + (q.w - q.y) / rgbToHsv_hueDen c|, d / rgbToHsv_satDen c, q.x⟩

/-- The vector `p` of `hsvToRgb`. -/
def hsvToRgb_p (c : Vec3 α) : Vec3 α :=
  let K : Vec4 α := ⟨1.0, 2.0 / 3.0, 1.0 / 3.0, 3.0⟩
  ⟨|fract (c.x + K.x) * 6.0 - K.w|, |fract (c.x + K.y) * 6.0 - K.w|,
   |fract (c.x + K.z) * 6.0 - K.w|⟩

/-- GLSL function `hsvToRgb`. -/
def hsvToRgb (c : Vec3 α) : Vec3 α :=
  let K : Vec4 α := ⟨1.0, 2.0 / 3.0, 1.0 / 3.0, 3.0⟩
  let p := hsvToRgb_p c
  let m := mix3 ⟨K.x, K.x, K.x⟩
    ⟨clamp (p.x - K.x) 0.0 1.0, clamp (p.y - K.x) 0.0 1.0, clamp (p.z - K.x) 0.0 1.0⟩ c.y
  ⟨c.z * m.x, c.z * m.y, c.z * m.z⟩

/-- The hue handed to `hsvToRgb` by the hue-shift program:
`mod(hsv.x + hueShift, 1.0)`, with the sum taken in the field, without
rounding.  The reading with every operation rounded to binary32 is
`shiftedHue32`. -/
def shiftedHue (hueShift : α) (color : Vec4 α) : α :=
  mod ((rgbToHsv color.rgb).x + hueShift) 1.0

/-- The body of `main` in the hue-shift fragment program, as a function of the
uniform `hueShift` and the colour sampled by `texture(ourTexture, TexCoord)`. -/
def colorFilterMain (hueShift : α) (color : Vec4 α) : Vec4 α :=
  let hsv := rgbToHsv color.rgb
  let hsv : Vec3 α := ⟨shiftedHue hueShift color, hsv.y, hsv.z⟩
  let out := hsvToRgb hsv
  ⟨out.x, out.y, out.z, color.a⟩

end Shaders

/-! ## Storing a colour in an 8-bit attachment -/

section Unorm

variable {α : Type} [LinearOrderedField α] [FloorRing α]

/-- Modelled from the spec: the 8-bit value stored for a colour component,
`round(clamp(c, 0, 1) * 255)` with round-to-nearest.  The conversion is done
by the GL when a fragment is written to a `GL_UNSIGNED_BYTE` texture; it is
not part of `main.cpp`. -/
def toUnorm8 (c : α) : ℤ := ⌊clamp c 0.0 1.0 * 255 + 1 / 2⌋

/-- Modelled from the spec: the colour component read from an 8-bit value,
`n / 255`.  The conversion is done by the GL when a texel is sampled; it is
not part of `main.cpp`. -/
def fromUnorm8 (n : ℤ) : α := (n : α) / 255

/-- Componentwise `toUnorm8`. -/
def quantize (c : Vec4 α) : Vec4 ℤ :=
  ⟨toUnorm8 c.x, toUnorm8 c.y, toUnorm8 c.z, toUnorm8 c.w⟩

/-- Componentwise `fromUnorm8`. -/
def dequantize (c : Vec4 ℤ) : Vec4 α :=
  ⟨fromUnorm8 c.x, fromUnorm8 c.y, fromUnorm8 c.z, fromUnorm8 c.w⟩

end Unorm

/-! ## The hue-shift program in binary32 arithmetic

A GLSL `float` is an IEEE 754 binary32 value.  The finite binary32 values are
kept as rationals, and every arithmetic operation of the shader is followed by
rounding to the nearest binary32 value, ties to even.  Comparisons, `min`,
`max`, `abs` and `floor` are exact on binary32 values.  Exponent overflow and
NaN are not modelled: on colours in `[0,1]` and a uniform in `[0,1]` every
intermediate value of the program stays below `8` in absolute value.
-/

/-- The power `2 ^ e` for an integer exponent. -/
def pow2 (e : ℤ) : ℚ :=
  if 0 ≤ e then ((2 ^ e.toNat : ℕ) : ℚ) else 1 / ((2 ^ (-e).toNat : ℕ) : ℚ)

/-- The integer nearest to `x`, ties to the even one. -/
def roundHalfEven (x : ℚ) : ℤ :=
  let f := ⌊x⌋
  let r := x - f
  if r < 1 / 2 then f else if 1 / 2 < r then f + 1 else if f % 2 = 0 then f else f + 1

/-- The number `⌊log₂ n⌋` for `n ≥ 1` (and `0` for `n = 0`), by halving at
most `fuel` times; `fuel = n` always suffices. -/
def log2Fuel : Nat → Nat → Nat
  | 0, _ => 0
  | fuel + 1, n => if n < 2 then 0 else log2Fuel fuel (n / 2) + 1

/-- The exponent `k` with `2 ^ k ≤ |x| < 2 ^ (k + 1)` for `x ≠ 0`: the
difference of the bit lengths of numerator and denominator, or one less. -/
def ilog2 (x : ℚ) : ℤ :=
  let t : ℤ := (log2Fuel x.num.natAbs x.num.natAbs : ℤ) - (log2Fuel x.den x.den : ℤ)
  if pow2 t ≤ |x| then t else t - 1

/-- Rounding to binary32, to nearest and ties to even: a 24-bit significand
at the exponent of `x`, and the fixed spacing `2 ^ (-149)` below the smallest
normal value `2 ^ (-126)`. -/
def round32 (x : ℚ) : ℚ :=
  if x = 0 then 0
  else
    let e := max (ilog2 x) (-126) - 23
    (roundHalfEven (x / pow2 e) : ℚ) * pow2 e

/-- The window width passed to `glfwCreateWindow`. -/
def windowWidth : Int := 1200

/-- The window height passed to `glfwCreateWindow`. -/
def windowHeight : Int := 600

/-- The program objects returned by `createShader`. -/
inductive Program where
  | originalShaderProgram
  | grayscaleShaderProgram
  | colorFilterShaderProgram
deriving DecidableEq, Repr

/-- The texture objects of `main`. -/
inductive Texture where
  | originalTexture
  | grayscaleTexture
  | colorFilterTexture
deriving DecidableEq, Repr

/-- The argument of `glBindFramebuffer`: `0` (the window) or `fbo`. -/
inductive Framebuffer where
  | screen
  | fbo
deriving DecidableEq, Repr

/-- The argument of `glDrawBuffer`. -/
inductive Attachment where
  | colorAttachment0
  | colorAttachment1
deriving DecidableEq, Repr

/-- The lines `main` writes to standard output. -/
inductive Message where
  | failedGlfw
  | failedWindow
  | failedGlew
  | openGLVersion
  | failedImage
  | framebufferNotComplete
deriving DecidableEq, Repr

/-- The calls recorded in the log. -/
inductive Call (α : Type) where
  | print (m : Message)
  | glfwTerminate
  | glfwSetWindowShouldClose
  | glfwSwapBuffers
  | glfwPollEvents
  | glClearColor (r g b a : α)
  | glClear
  | glUseProgram (p : Program)
  | glBindTexture (t : Texture)
  | glBindVertexArray
  | glBindFramebuffer (f : Framebuffer)
  | glDrawBuffer (s : Attachment)
  | glViewport (x y width height : Int)
  | glUniform1f (v : α)
  | glDrawArrays
  | glDeleteVertexArrays
  | glDeleteBuffers
  | glDeleteProgram (p : Program)
  | glDeleteTextures (t : Texture)
  | glDeleteFramebuffers
deriving DecidableEq, Repr

/-- What the collaborators answer during one iteration of the render loop. -/
structure FrameInput (α : Type) where
  /-- Whether `glfwGetKey(window, GLFW_KEY_ESCAPE) == GLFW_PRESS` in `processInput`. -/
  escapePressed : Bool
  /-- The value of `glfwGetTime()`. -/
  time : α
  /-- Whether `glfwPollEvents` delivers a request to close the window. -/
  closeRequested : Bool

/-- What the collaborators answer during one run of `main`. -/
structure Env (α : Type) where
  /-- The result of `glfwInit()`. -/
  glfwInit : Bool
  /-- Whether `glfwCreateWindow` returned a window. -/
  windowCreated : Bool
  /-- Whether `glewInit() == GLEW_OK`. -/
  glewOk : Bool
  /-- The result of `stbi_load`: `none` for a null pointer, else `width`,
  `height` and `nrChannels`. -/
  image : Option (Int × Int × Int)
  /-- Whether `glCheckFramebufferStatus` returned `GL_FRAMEBUFFER_COMPLETE`. -/
  framebufferComplete : Bool
  /-- The iterations of the render loop that were observed. -/
  frames : List (FrameInput α)

/-- The log of a run and the value returned by `main`; `none` when the render
loop was still running after the last observed iteration. -/
structure Result (α : Type) where
  calls : List (Call α)
  returned : Option Int

section Host

variable {α : Type} [LinearOrderedField α]

/-- The uniform computed in the render loop:
`0.5f * (sin(glfwGetTime()) + 1.0f)`, with the sine function as a parameter. -/
def hueShift (sin : α → α) (time : α) : α := 0.5 * (sin time + 1.0)

/-- Function `processInput`: the calls it makes. -/
def processInput (escapePressed : Bool) : List (Call α) :=
  if escapePressed then [Call.glfwSetWindowShouldClose] else []

/-- Loop body, "Clear screen". -/
def clearScreen : List (Call α) :=
  [Call.glClearColor 0.2 0.3 0.3 1.0, Call.glClear]

/-- Loop body, "Render original image to left side of screen". -/
def renderOriginal : List (Call α) :=
  [Call.glUseProgram Program.originalShaderProgram,
   Call.glBindTexture Texture.originalTexture,
   Call.glBindVertexArray,
   Call.glViewport 0 0 600 600,
   Call.glDrawArrays]

/-- Loop body, "Render grayscale image to FBO, then to screen". -/
def renderGrayscale (width height : Int) : List (Call α) :=
  [Call.glBindFramebuffer Framebuffer.fbo,
   Call.glDrawBuffer Attachment.colorAttachment0,
   Call.glClearColor 0.0 0.0 0.0 1.0,
   Call.glClear,
   Call.glUseProgram Program.grayscaleShaderProgram,
   Call.glBindTexture Texture.originalTexture,
   Call.glBindVertexArray,
   Call.glViewport 0 0 width height,
   Call.glDrawArrays,
   Call.glBindFramebuffer Framebuffer.screen,
   Call.glUseProgram Program.originalShaderProgram,
   Call.glBindTexture Texture.grayscaleTexture,
   Call.glViewport 600 0 300 600,
   Call.glDrawArrays]

/-- Loop body, "Render color filtered image to FBO, then to screen". -/
def renderColorFilter (sin : α → α) (width height : Int) (time : α) : List (Call α) :=
  [Call.glBindFramebuffer Framebuffer.fbo,
   Call.glDrawBuffer Attachment.colorAttachment1,
   Call.glClearColor 0.0 0.0 0.0 1.0,
   Call.glClear,
   Call.glUseProgram Program.colorFilterShaderProgram,
   Call.glBindTexture Texture.originalTexture,
   Call.glUniform1f (hueShift sin time),
   Call.glBindVertexArray,
   Call.glViewport 0 0 width height,
   Call.glDrawArrays,
   Call.glBindFramebuffer Framebuffer.screen,
   Call.glUseProgram Program.originalShaderProgram,
   Call.glBindTexture Texture.colorFilterTexture,
   Call.glViewport 900 0 300 600,
   Call.glDrawArrays]

/-- Loop body, "Swap buffers and poll IO events". -/
def swapAndPoll : List (Call α) :=
  [Call.glfwSwapBuffers, Call.glfwPollEvents]

/-- The calls of one iteration after `processInput`. -/
def frameBody (sin : α → α) (width height : Int) (time : α) : List (Call α) :=
  clearScreen ++ renderOriginal ++ renderGrayscale width height ++
    renderColorFilter sin width height time ++ swapAndPoll

/-- The calls of one whole iteration of the render loop. -/
def iteration (sin : α → α) (width height : Int) (f : FrameInput α) : List (Call α) :=
  processInput f.escapePressed ++ frameBody sin width height f.time

/-- The render loop `while (!glfwWindowShouldClose(window)) ...`, started with
the given close flag.  The flag is set by `processInput` when the escape key is
pressed and by `glfwPollEvents` on a close request, and nothing clears it.
Returns the calls made and whether the loop was left. -/
def renderLoop (sin : α → α) (width height : Int) :
    Bool → List (FrameInput α) → List (Call α) × Bool
  | shouldClose, [] => ([], shouldClose)
  | shouldClose, f :: rest =>
    if shouldClose then ([], true)
    else
      let afterInput := shouldClose || f.escapePressed
      let afterPoll := afterInput || f.closeRequested
      let r := renderLoop sin width height afterPoll rest
      (iteration sin width height f ++ r.1, r.2)

/-- The calls under "Cleanup". -/
def cleanup : List (Call α) :=
  [Call.glDeleteVertexArrays,
   Call.glDeleteBuffers,
   Call.glDeleteProgram Program.originalShaderProgram,
   Call.glDeleteProgram Program.grayscaleShaderProgram,
   Call.glDeleteProgram Program.colorFilterShaderProgram,
   Call.glDeleteTextures Texture.originalTexture,
   Call.glDeleteTextures Texture.grayscaleTexture,
   Call.glDeleteTextures Texture.colorFilterTexture,
   Call.glDeleteFramebuffers,
   Call.glfwTerminate]

/-- Function `main`. -/
def main (sin : α → α) (env : Env α) : Result α :=
  if !env.glfwInit then
    ⟨[Call.print Message.failedGlfw], some (-1)⟩
  else if !env.windowCreated then
    ⟨[Call.print Message.failedWindow, Call.glfwTerminate], some (-1)⟩
  else if !env.glewOk then
    ⟨[Call.print Message.failedGlew], some (-1)⟩
  else
    match env.image with
    | none =>
      ⟨[Call.print Message.openGLVersion, Call.print Message.failedImage,
        Call.glfwTerminate], some (-1)⟩
    | some (width, height, _) =>
      let check : List (Call α) :=
        if env.framebufferComplete then []
        else [Call.print Message.framebufferNotComplete]
      let setup : List (Call α) :=
        [Call.print Message.openGLVersion, Call.glBindFramebuffer Framebuffer.fbo] ++
          check ++ [Call.glBindFramebuffer Framebuffer.screen]
      let r := renderLoop sin width height false env.frames
      if r.2 then ⟨setup ++ r.1 ++ cleanup, some 0⟩
      else ⟨setup ++ r.1, none⟩

/-- A rectangle set by `glViewport`. -/
structure Viewport where
  x : Int
  y : Int
  width : Int
  height : Int
deriving DecidableEq, Repr

/-- The part of the GL state that decides where a draw call lands. -/
structure DrawState where
  framebuffer : Framebuffer
  viewport : Viewport

/-- The viewport rectangles of the draw calls that land on the window, in
order: a `glDrawArrays` issued while framebuffer `0` is bound draws into the
rectangle of the latest `glViewport`. -/
def screenDraws : DrawState → List (Call α) → List Viewport
  | _, [] => []
  | st, Call.glBindFramebuffer f :: cs => screenDraws ⟨f, st.viewport⟩ cs
  | st, Call.glViewport x y w h :: cs => screenDraws ⟨st.framebuffer, ⟨x, y, w, h⟩⟩ cs
  | st, Call.glDrawArrays :: cs =>
    if st.framebuffer = Framebuffer.screen then st.viewport :: screenDraws st cs
    else screenDraws st cs
  | st, _ :: cs => screenDraws st cs

/-- The pixel columns `x ≤ p < x + width` covered by a rectangle. -/
def Viewport.coversColumn (v : Viewport) (p : Int) : Prop :=
  v.x ≤ p ∧ p < v.x + v.width

end Host

/-! ## Facts about the built-ins -/

section Literals

variable {α : Type} [LinearOrderedField α]

theorem lit_zero : (0.0 : α) = 0 := by norm_num

theorem lit_one : (1.0 : α) = 1 := by norm_num

theorem lit_two : (2.0 : α) = 2 := by norm_num

theorem lit_three : (3.0 : α) = 3 := by norm_num

theorem lit_six : (6.0 : α) = 6 := by norm_num

theorem lit_neg_third : (-1.0 / 3.0 : α) = -1 / 3 := by norm_num

theorem lit_third : (1.0 / 3.0 : α) = 1 / 3 := by norm_num

theorem lit_two_thirds : (2.0 / 3.0 : α) = 2 / 3 := by norm_num

theorem step_of_le {edge x : α} (h : edge ≤ x) : step edge x = 1 := by
  simp [step, not_lt.mpr h]

theorem step_of_lt {edge x : α} (h : x < edge) : step edge x = 0 := by
  simp [step, h]

theorem mix_zero (x y : α) : mix x y 0 = x := by simp [mix]

theorem mix_one (x y : α) : mix x y 1 = y := by simp [mix]

theorem rgbToHsv_e_pos : (0 : α) < rgbToHsv_e := by
  unfold rgbToHsv_e; norm_num

/-- The four branches selected by the two `step`/`mix` pairs of `rgbToHsv`. -/
theorem rgbToHsv_q_eq (c : Vec3 α) :
    rgbToHsv_q c =
      if c.z ≤ c.y then
        (if c.y ≤ c.x then ⟨c.x, c.z, 0, c.y⟩ else ⟨c.y, c.z, -1 / 3, c.x⟩)
      else
        (if c.z ≤ c.x then ⟨c.x, c.y, -1, c.z⟩ else ⟨c.z, c.y, 2 / 3, c.x⟩) := by
  unfold rgbToHsv_q rgbToHsv_p
  simp only [lit_zero, lit_one, lit_two, lit_three]
  by_cases h1 : c.z ≤ c.y
  · by_cases h2 : c.y ≤ c.x
    · simp [h1, h2, step_of_le, mix4, mix_one]
    · have h2' : c.x < c.y := not_le.mp h2
      simp [h1, h2, h2', step_of_le, step_of_lt, mix4, mix_one, mix_zero]
  · have h1' : c.y < c.z := not_le.mp h1
    by_cases h2 : c.z ≤ c.x
    · simp [h1, h2, h1', step_of_le, step_of_lt, mix4, mix_one, mix_zero]
    · have h2' : c.x < c.z := not_le.mp h2
      simp [h1, h2, h1', h2', step_of_lt, mix4, mix_zero]

/-- The component `q.x` of `rgbToHsv` is the largest input channel. -/
theorem rgbToHsv_q_x (c : Vec3 α) : (rgbToHsv_q c).x = max c.x (max c.y c.z) := by
  rw [rgbToHsv_q_eq]
  by_cases h1 : c.z ≤ c.y
  · by_cases h2 : c.y ≤ c.x
    · simp [h1, h2, max_eq_left h1, max_eq_left h2]
    · have h2' : c.x ≤ c.y := le_of_lt (not_le.mp h2)
      simp [h1, h2, max_eq_left h1, max_eq_right h2']
  · have h1' : c.y ≤ c.z := le_of_lt (not_le.mp h1)
    by_cases h2 : c.z ≤ c.x
    · simp [h1, h2, max_eq_right h1', max_eq_left h2]
    · have h2' : c.x ≤ c.z := le_of_lt (not_le.mp h2)
      simp [h1, h2, max_eq_right h1', max_eq_right h2']

/-- The scalar `d` of `rgbToHsv` is the spread between the largest and the
smallest input channel. -/
theorem rgbToHsv_d_eq (c : Vec3 α) :
    rgbToHsv_d c = max c.x (max c.y c.z) - min c.x (min c.y c.z) := by
  unfold rgbToHsv_d
  simp only [rgbToHsv_q_x]
  rw [rgbToHsv_q_eq]
  by_cases h1 : c.z ≤ c.y
  · by_cases h2 : c.y ≤ c.x
    · simp [h1, h2, min_eq_right h1, min_eq_right (le_trans h1 h2)]
    · have h2' : c.x ≤ c.y := le_of_lt (not_le.mp h2)
      simp [h1, h2, min_eq_right h1]
  · have h1' : c.y ≤ c.z := le_of_lt (not_le.mp h1)
    by_cases h2 : c.z ≤ c.x
    · simp [h1, h2, min_eq_left h1', min_eq_right (le_trans h1' h2), min_comm]
    · have h2' : c.x ≤ c.z := le_of_lt (not_le.mp h2)
      simp [h1, h2, min_eq_left h1']

theorem rgbToHsv_d_nonneg (c : Vec3 α) : 0 ≤ rgbToHsv_d c := by
  rw [rgbToHsv_d_eq]
  have h1 : min c.x (min c.y c.z) ≤ c.x := min_le_left _ _
  have h2 : c.x ≤ max c.x (max c.y c.z) := le_max_left _ _
  linarith

theorem rgbToHsv_hueDen_pos (c : Vec3 α) : 0 < rgbToHsv_hueDen c := by
  unfold rgbToHsv_hueDen
  rw [lit_six]
  linarith [rgbToHsv_d_nonneg c, (rgbToHsv_e_pos : (0 : α) < rgbToHsv_e)]

end Literals

section Lemmas

variable {α : Type} [LinearOrderedField α]

theorem mod_one_eq [FloorRing α] (x : α) : mod x 1.0 = x - (⌊x⌋ : α) := by
  simp [mod, lit_one]

theorem mod_one_nonneg [FloorRing α] (x : α) : 0 ≤ mod x 1.0 := by
  rw [mod_one_eq]; linarith [Int.floor_le x]

theorem mod_one_lt_one [FloorRing α] (x : α) : mod x 1.0 < 1 := by
  rw [mod_one_eq]; linarith [Int.lt_floor_add_one x]

end Lemmas

/-! ## The hue returned by `rgbToHsv` -/

section Hue

variable {α : Type} [LinearOrderedField α]

/-- A quotient whose numerator is at most a sixth of the denominator in
absolute value lies strictly between `-1/6` and `1/6`. -/
theorem div_sixth_bounds {n den : α} (hden : 0 < den) (h1 : 6 * n < den)
    (h2 : -den < 6 * n) : -(1 / 6) < n / den ∧ n / den < 1 / 6 := by
  constructor
  · rw [lt_div_iff₀ hden]; linarith
  · rw [div_lt_iff₀ hden]; linarith

theorem rgbToHsv_hue_nonneg (c : Vec3 α) : 0 ≤ (rgbToHsv c).x := by
  unfold rgbToHsv; exact abs_nonneg _

theorem rgbToHsv_hue_lt_one (c : Vec3 α) : (rgbToHsv c).x < 1 := by
  have hden := rgbToHsv_hueDen_pos c
  have he : (0 : α) < rgbToHsv_e := rgbToHsv_e_pos
  have hD : rgbToHsv_hueDen c = 6 * rgbToHsv_d c + rgbToHsv_e := by
    unfold rgbToHsv_hueDen; rw [lit_six]
  have hd : rgbToHsv_d c = (rgbToHsv_q c).x - min (rgbToHsv_q c).w (rgbToHsv_q c).y := rfl
  unfold rgbToHsv
  simp only
  rw [abs_lt]
  by_cases h1 : c.z ≤ c.y
  · by_cases h2 : c.y ≤ c.x
    · have hq : rgbToHsv_q c = ⟨c.x, c.z, 0, c.y⟩ := by
        rw [rgbToHsv_q_eq]; simp [h1, h2]
      rw [hq] at hd ⊢
      simp only [min_eq_right h1] at hd
      have hb := div_sixth_bounds hden (n := c.y - c.z) (by rw [hD, hd]; linarith)
        (by rw [hD, hd]; linarith)
      have hpos : 0 ≤ (c.y - c.z) / rgbToHsv_hueDen c :=
        div_nonneg (by linarith) (le_of_lt hden)
      constructor <;> linarith [hb.1, hb.2]
    · have h2' : c.x < c.y := not_le.mp h2
      have hq : rgbToHsv_q c = ⟨c.y, c.z, -1 / 3, c.x⟩ := by
        rw [rgbToHsv_q_eq]; simp [h1, h2]
      rw [hq] at hd ⊢
      simp only at hd
      have hm1 : min c.x c.z ≤ c.x := min_le_left _ _
      have hm2 : min c.x c.z ≤ c.z := min_le_right _ _
      have hb := div_sixth_bounds hden (n := c.x - c.z) (by rw [hD, hd]; linarith)
        (by rw [hD, hd]; linarith)
      constructor <;> linarith [hb.1, hb.2]
  · have h1' : c.y < c.z := not_le.mp h1
    by_cases h2 : c.z ≤ c.x
    · have hq : rgbToHsv_q c = ⟨c.x, c.y, -1, c.z⟩ := by
        rw [rgbToHsv_q_eq]; simp [h1, h2]
      rw [hq] at hd ⊢
      simp only [min_eq_right (le_of_lt h1')] at hd
      have hb := div_sixth_bounds hden (n := c.z - c.y) (by rw [hD, hd]; linarith)
        (by rw [hD, hd]; linarith)
      have hpos : 0 < (c.z - c.y) / rgbToHsv_hueDen c :=
        div_pos (by linarith) hden
      constructor <;> linarith [hb.1, hb.2]
    · have h2' : c.x < c.z := not_le.mp h2
      have hq : rgbToHsv_q c = ⟨c.z, c.y, 2 / 3, c.x⟩ := by
        rw [rgbToHsv_q_eq]; simp [h1, h2]
      rw [hq] at hd ⊢
      simp only at hd
      have hm1 : min c.x c.y ≤ c.x := min_le_left _ _
      have hm2 : min c.x c.y ≤ c.y := min_le_right _ _
      have hb := div_sixth_bounds hden (n := c.x - c.y) (by rw [hD, hd]; linarith)
        (by rw [hD, hd]; linarith)
      constructor <;> linarith [hb.1, hb.2]

end Hue

/-! ## The channels produced by `hsvToRgb` -/

section Channels

variable {α : Type} [LinearOrderedField α]

theorem clamp_unit_nonneg (x : α) : 0 ≤ clamp x 0 1 :=
  le_min (le_max_right _ _) zero_le_one

theorem clamp_unit_le_one (x : α) : clamp x 0 1 ≤ 1 :=
  min_le_right _ _

theorem clamp_unit_of_one_le {x : α} (h : 1 ≤ x) : clamp x 0 1 = 1 :=
  min_eq_right (le_trans h (le_max_left _ _))

theorem clamp_unit_of_nonpos {x : α} (h : x ≤ 0) : clamp x 0 1 = 0 := by
  unfold clamp; rw [max_eq_right h]; exact min_eq_left zero_le_one

theorem clamp_unit_of_mem {x : α} (h0 : 0 ≤ x) (h1 : x ≤ 1) : clamp x 0 1 = x := by
  unfold clamp; rw [max_eq_left h0]; exact min_eq_left h1

theorem fract_of_floor [FloorRing α] {x : α} {n : ℤ} (h1 : (n : α) ≤ x) (h2 : x < n + 1) :
    fract x = x - n := by
  unfold fract
  rw [Int.floor_eq_iff.mpr ⟨h1, h2⟩]

/-- For a hue in `[0,1)`, one of the three components of `p` in `hsvToRgb` is
at least `2`, so one of the three clamped weights is `1`. -/
theorem hsvToRgb_p_peak [FloorRing α] (c : Vec3 α) (h0 : 0 ≤ c.x) (h1 : c.x < 1) :
    2 ≤ (hsvToRgb_p c).x ∨ 2 ≤ (hsvToRgb_p c).y ∨ 2 ≤ (hsvToRgb_p c).z := by
  unfold hsvToRgb_p
  simp only [lit_one, lit_two_thirds, lit_third, lit_three, lit_six]
  have f1 : fract (c.x + 1) = c.x := by
    rw [fract_of_floor (n := 1) (by push_cast; linarith) (by push_cast; linarith)]
    push_cast; ring
  rcases le_or_lt c.x (1 / 6) with ha | ha
  · left
    rw [f1, abs_of_nonpos (by linarith)]; linarith
  rcases lt_or_le c.x (1 / 3) with hb | hb
  · right; left
    rw [fract_of_floor (n := 0) (by push_cast; linarith) (by push_cast; linarith)]
    rw [abs_of_nonneg (by push_cast; linarith)]; push_cast; linarith
  rcases le_or_lt c.x (1 / 2) with hc | hc
  · right; left
    rw [fract_of_floor (n := 1) (by push_cast; linarith) (by push_cast; linarith)]
    rw [abs_of_nonpos (by push_cast; linarith)]; push_cast; linarith
  rcases lt_or_le c.x (2 / 3) with hd | hd
  · right; right
    rw [fract_of_floor (n := 0) (by push_cast; linarith) (by push_cast; linarith)]
    rw [abs_of_nonneg (by push_cast; linarith)]; push_cast; linarith
  rcases le_or_lt c.x (5 / 6) with he | he
  · right; right
    rw [fract_of_floor (n := 1) (by push_cast; linarith) (by push_cast; linarith)]
    rw [abs_of_nonpos (by push_cast; linarith)]; push_cast; linarith
  · left
    rw [f1, abs_of_nonneg (by linarith)]; linarith

/-- A channel `v * mix(1, w, s)` with weight `w` and saturation `s` in `[0,1]`
lies between `0` and `v`. -/
theorem channel_bounds {v w s : α} (hv : 0 ≤ v) (hw0 : 0 ≤ w) (hw1 : w ≤ 1)
    (hs0 : 0 ≤ s) (hs1 : s ≤ 1) : 0 ≤ v * mix 1 w s ∧ v * mix 1 w s ≤ v := by
  unfold mix
  have hm0 : 0 ≤ 1 * (1 - s) + w * s := by
    have := mul_nonneg hw0 hs0; linarith
  have hm1 : 1 * (1 - s) + w * s ≤ 1 := by
    have := mul_le_mul_of_nonneg_right hw1 hs0; linarith
  exact ⟨mul_nonneg hv hm0, by simpa using mul_le_mul_of_nonneg_left hm1 hv⟩

theorem channel_peak (v s : α) : v * mix 1 1 s = v := by
  unfold mix; ring

/-- The saturation computed by `rgbToHsv` lies in `[0,1]` when the input
channels are non-negative. -/
theorem rgbToHsv_sat_bounds (c : Vec3 α) (hx : 0 ≤ c.x) (hy : 0 ≤ c.y) (hz : 0 ≤ c.z) :
    0 < rgbToHsv_satDen c ∧ 0 ≤ (rgbToHsv c).y ∧ (rgbToHsv c).y ≤ 1 := by
  have he : (0 : α) < rgbToHsv_e := rgbToHsv_e_pos
  have hd0 := rgbToHsv_d_nonneg c
  have hd := rgbToHsv_d_eq c
  have hq := rgbToHsv_q_x c
  have hmax : 0 ≤ max c.x (max c.y c.z) := le_trans hx (le_max_left _ _)
  have hmin : 0 ≤ min c.x (min c.y c.z) := le_min hx (le_min hy hz)
  have hden : 0 < rgbToHsv_satDen c := by
    unfold rgbToHsv_satDen; rw [hq]; linarith
  refine ⟨hden, ?_, ?_⟩
  · unfold rgbToHsv; exact div_nonneg hd0 (le_of_lt hden)
  · unfold rgbToHsv
    simp only
    rw [div_le_one hden]
    unfold rgbToHsv_satDen; rw [hq, hd]; linarith

theorem toUnorm8_eq [FloorRing α] {c : α} {n : ℤ} (h0 : 0 ≤ c) (h1 : c ≤ 1)
    (hlo : (n : α) ≤ c * 255 + 1 / 2) (hhi : c * 255 + 1 / 2 < n + 1) : toUnorm8 c = n := by
  unfold toUnorm8
  rw [lit_zero, lit_one, clamp_unit_of_mem h0 h1]
  exact Int.floor_eq_iff.mpr ⟨hlo, hhi⟩

/-- The grayscale program on opaque red. -/
theorem grayscaleMain_red :
    grayscaleMain (⟨1, 0, 0, 1⟩ : Vec4 α) = ⟨0.299, 0.299, 0.299, 1⟩ := by
  simp [grayscaleMain, dot, Vec4.rgb, Vec4.a]

/-- The hue-shift program on opaque red with `hueShift = 1/2`: the red channel
keeps the residue `1 - 1 / (1 + e)` left by the epsilon in the saturation. -/
theorem colorFilterMain_red [FloorRing α] :
    colorFilterMain (1 / 2) (⟨1, 0, 0, 1⟩ : Vec4 α) =
      ⟨1 - 1 / (1 + rgbToHsv_e), 1, 1, 1⟩ := by
  have hq : rgbToHsv_q (⟨1, 0, 0⟩ : Vec3 α) = ⟨1, 0, 0, 0⟩ := by
    rw [rgbToHsv_q_eq]; simp
  have hd : rgbToHsv_d (⟨1, 0, 0⟩ : Vec3 α) = 1 := by
    unfold rgbToHsv_d; rw [hq]; simp
  have hhsv : rgbToHsv (⟨1, 0, 0⟩ : Vec3 α) = ⟨0, 1 / (1 + rgbToHsv_e), 1⟩ := by
    unfold rgbToHsv rgbToHsv_satDen; rw [hq, hd]; simp
  have hhue : shiftedHue (1 / 2) (⟨1, 0, 0, 1⟩ : Vec4 α) = 1 / 2 := by
    unfold shiftedHue Vec4.rgb
    rw [hhsv, mod_one_eq]
    have : ⌊(0 + 1 / 2 : α)⌋ = 0 :=
      Int.floor_eq_iff.mpr ⟨by push_cast; norm_num, by push_cast; norm_num⟩
    rw [this]; push_cast; ring
  have hp : hsvToRgb_p (⟨1 / 2, 1 / (1 + rgbToHsv_e), 1⟩ : Vec3 α) = ⟨0, 2, 2⟩ := by
    unfold hsvToRgb_p
    simp only [lit_one, lit_two_thirds, lit_third, lit_three, lit_six]
    rw [fract_of_floor (n := 1) (by push_cast; norm_num) (by push_cast; norm_num),
      fract_of_floor (n := 1) (by push_cast; norm_num) (by push_cast; norm_num),
      fract_of_floor (n := 0) (by push_cast; norm_num) (by push_cast; norm_num)]
    push_cast
    norm_num
  unfold colorFilterMain
  simp only [hhue, Vec4.rgb, Vec4.a, hhsv, hsvToRgb, hp, mix3, lit_one, lit_zero]
  rw [clamp_unit_of_nonpos (by norm_num : (0 : α) - 1 ≤ 0),
    clamp_unit_of_one_le (by norm_num : (1 : α) ≤ 2 - 1)]
  simp [mix]

end Channels


/-! ## The specification's properties: fragment programs -/

section Claims

variable {α : Type} [LinearOrderedField α]

/-- C1: the grayscale program maps every colour `(r,g,b,a)` to `(L,L,L,a)` with
`L = 0.299 r + 0.587 g + 0.114 b`; alpha is unchanged, the three colour channels
are equal, `(0,0,0,a)` gives `L = 0` and `(1,1,1,a)` gives `L = 1`. -/
theorem grayscale_luminance (r g b a : α) :
    grayscaleMain ⟨r, g, b, a⟩ =
        ⟨0.299 * r + 0.587 * g + 0.114 * b, 0.299 * r + 0.587 * g + 0.114 * b,
         0.299 * r + 0.587 * g + 0.114 * b, a⟩ ∧
      (grayscaleMain ⟨r, g, b, a⟩).w = a ∧
      (grayscaleMain ⟨r, g, b, a⟩).x = (grayscaleMain ⟨r, g, b, a⟩).y ∧
      (grayscaleMain ⟨r, g, b, a⟩).y = (grayscaleMain ⟨r, g, b, a⟩).z ∧
      grayscaleMain ⟨0, 0, 0, a⟩ = ⟨0, 0, 0, a⟩ ∧
      grayscaleMain ⟨1, 1, 1, a⟩ = ⟨1, 1, 1, a⟩ := by
  refine ⟨?_, rfl, rfl, rfl, ?_, ?_⟩
  · simp only [grayscaleMain, dot, Vec4.rgb, Vec4.a, Vec4.mk.injEq, and_true]
    refine ⟨?_, ?_, ?_⟩ <;> ring
  · simp [grayscaleMain, dot, Vec4.rgb, Vec4.a]
  · simp only [grayscaleMain, dot, Vec4.rgb, Vec4.a, Vec4.mk.injEq, and_true]
    refine ⟨?_, ?_, ?_⟩ <;> norm_num

/-- C2: for every colour with `r,g,b` in `[0,1]` the hue returned by `rgbToHsv`
lies in `[0,1)`, and for every `hueShift` the hue handed to `hsvToRgb`,
`mod(hue + hueShift, 1.0) = x - floor(x)`, lies in `[0,1)` as well. -/
theorem hue_stays_on_wheel [FloorRing α] (color : Vec4 α) (hueShift : α)
    (_hr : 0 ≤ color.x ∧ color.x ≤ 1) (_hg : 0 ≤ color.y ∧ color.y ≤ 1)
    (_hb : 0 ≤ color.z ∧ color.z ≤ 1) :
    (0 ≤ (rgbToHsv color.rgb).x ∧ (rgbToHsv color.rgb).x < 1) ∧
      shiftedHue hueShift color =
        ((rgbToHsv color.rgb).x + hueShift) - (⌊(rgbToHsv color.rgb).x + hueShift⌋ : α) ∧
      (0 ≤ shiftedHue hueShift color ∧ shiftedHue hueShift color < 1) ∧
      colorFilterMain hueShift color =
        ⟨(hsvToRgb ⟨shiftedHue hueShift color, (rgbToHsv color.rgb).y,
            (rgbToHsv color.rgb).z⟩).x,
         (hsvToRgb ⟨shiftedHue hueShift color, (rgbToHsv color.rgb).y,
            (rgbToHsv color.rgb).z⟩).y,
         (hsvToRgb ⟨shiftedHue hueShift color, (rgbToHsv color.rgb).y,
            (rgbToHsv color.rgb).z⟩).z, color.w⟩ :=
  ⟨⟨rgbToHsv_hue_nonneg _, rgbToHsv_hue_lt_one _⟩, mod_one_eq _,
    ⟨mod_one_nonneg _, mod_one_lt_one _⟩, rfl⟩

/-- The rounding `round32` on constants of the shader: `1.0 / 3.0` is
`0x3EAAAAAB`, `2.0 / 3.0` is `0x3F2AAAAB`, `1.0e-10` is `0x2EDBE6FF`, a value
with at most 24 significant bits is kept, and a tie goes to the even
significand. -/
theorem round32_constants :
    round32 (1 / 3) = 11184811 / 2 ^ 25 ∧ round32 (2 / 3) = 11184811 / 2 ^ 24 ∧
      round32 (1 / 10000000000) = 14411519 / 2 ^ 57 ∧
      round32 (16777215 / 2 ^ 24) = 16777215 / 2 ^ 24 ∧
      round32 (1 + 1 / 2 ^ 24) = 1 ∧ round32 (1 + 3 / 2 ^ 24) = 1 + 1 / 2 ^ 22 := by
  refine ⟨by decide!, by decide!, by decide!, by decide!, by decide!, by decide!⟩

/-- C4: for a gray colour `(v,v,v,a)` with `v` in `[0,1]` and every `hueShift`,
neither denominator of `rgbToHsv` is zero, the saturation is `0`, and the
hue-shift program returns `(v,v,v,a)`. -/
theorem gray_fixed [FloorRing α] (v a hueShift : α) (hv0 : 0 ≤ v) (_hv1 : v ≤ 1) :
    rgbToHsv_hueDen (⟨v, v, v, a⟩ : Vec4 α).rgb ≠ 0 ∧
      rgbToHsv_satDen (⟨v, v, v, a⟩ : Vec4 α).rgb ≠ 0 ∧
      (rgbToHsv (⟨v, v, v, a⟩ : Vec4 α).rgb).y = 0 ∧
      colorFilterMain hueShift ⟨v, v, v, a⟩ = ⟨v, v, v, a⟩ := by
  have he : (0 : α) < rgbToHsv_e := rgbToHsv_e_pos
  have hq : rgbToHsv_q (⟨v, v, v⟩ : Vec3 α) = ⟨v, v, 0, v⟩ := by
    rw [rgbToHsv_q_eq]; simp
  have hd : rgbToHsv_d (⟨v, v, v⟩ : Vec3 α) = 0 := by
    unfold rgbToHsv_d; rw [hq]; simp
  have hsat : (rgbToHsv (⟨v, v, v⟩ : Vec3 α)).y = 0 := by
    unfold rgbToHsv; simp only; rw [hd, zero_div]
  have hval : (rgbToHsv (⟨v, v, v⟩ : Vec3 α)).z = v := by
    unfold rgbToHsv; simp only; rw [hq]
  refine ⟨?_, ?_, hsat, ?_⟩
  · exact ne_of_gt (rgbToHsv_hueDen_pos _)
  · unfold rgbToHsv_satDen Vec4.rgb
    rw [hq]
    exact ne_of_gt (by simp only; linarith)
  · unfold colorFilterMain
    simp only [Vec4.rgb, Vec4.a, hsat, hval, hsvToRgb, mix3, mix_zero, lit_one, lit_zero, mul_one]

/-- C10: for every colour with `r,g,b` in `[0,1]` and every `hueShift`, the
largest colour channel of the hue-shift output equals the largest colour
channel of the input, every output colour channel lies between `0` and that
value, and the output alpha equals the input alpha. -/
theorem hueShift_preserves_value [FloorRing α] (color : Vec4 α) (hueShift : α)
    (hr : 0 ≤ color.x ∧ color.x ≤ 1) (hg : 0 ≤ color.y ∧ color.y ≤ 1)
    (hb : 0 ≤ color.z ∧ color.z ≤ 1) :
    max (colorFilterMain hueShift color).x
        (max (colorFilterMain hueShift color).y (colorFilterMain hueShift color).z) =
        max color.x (max color.y color.z) ∧
      (0 ≤ (colorFilterMain hueShift color).x ∧
        (colorFilterMain hueShift color).x ≤ max color.x (max color.y color.z)) ∧
      (0 ≤ (colorFilterMain hueShift color).y ∧
        (colorFilterMain hueShift color).y ≤ max color.x (max color.y color.z)) ∧
      (0 ≤ (colorFilterMain hueShift color).z ∧
        (colorFilterMain hueShift color).z ≤ max color.x (max color.y color.z)) ∧
      (colorFilterMain hueShift color).w = color.w := by
  obtain ⟨_, hs0, hs1⟩ := rgbToHsv_sat_bounds color.rgb hr.1 hg.1 hb.1
  have hval : (rgbToHsv color.rgb).z = max color.x (max color.y color.z) :=
    rgbToHsv_q_x color.rgb
  have hv : 0 ≤ max color.x (max color.y color.z) := le_trans hr.1 (le_max_left _ _)
  have hh0 : 0 ≤ shiftedHue hueShift color := mod_one_nonneg _
  have hh1 : shiftedHue hueShift color < 1 := mod_one_lt_one _
  have hpeak := hsvToRgb_p_peak
    (⟨shiftedHue hueShift color, (rgbToHsv color.rgb).y, (rgbToHsv color.rgb).z⟩ : Vec3 α)
    hh0 hh1
  simp only [colorFilterMain, hsvToRgb, mix3, Vec4.a, lit_one, lit_zero, hval] at hpeak ⊢
  generalize hsvToRgb_p
    (⟨shiftedHue hueShift color, (rgbToHsv color.rgb).y,
      max color.x (max color.y color.z)⟩ : Vec3 α) = p at hpeak ⊢
  generalize (rgbToHsv color.rgb).y = s at hs0 hs1 ⊢
  generalize max color.x (max color.y color.z) = m at hv ⊢
  have bx := channel_bounds hv (clamp_unit_nonneg (p.x - 1)) (clamp_unit_le_one (p.x - 1))
    hs0 hs1
  have byy := channel_bounds hv (clamp_unit_nonneg (p.y - 1)) (clamp_unit_le_one (p.y - 1))
    hs0 hs1
  have bz := channel_bounds hv (clamp_unit_nonneg (p.z - 1)) (clamp_unit_le_one (p.z - 1))
    hs0 hs1
  refine ⟨?_, bx, byy, bz, trivial⟩
  apply le_antisymm (max_le bx.2 (max_le byy.2 bz.2))
  rcases hpeak with h | h | h
  · rw [clamp_unit_of_one_le (show (1 : α) ≤ p.x - 1 by linarith), channel_peak]
    exact le_max_left _ _
  · rw [clamp_unit_of_one_le (show (1 : α) ≤ p.y - 1 by linarith), channel_peak]
    exact le_trans (le_max_left _ _) (le_max_right _ _)
  · rw [clamp_unit_of_one_le (show (1 : α) ≤ p.z - 1 by linarith), channel_peak]
    exact le_trans (le_max_right _ _) (le_max_right _ _)

/-- C2, at the colour `(1/2, 1/4, 0, 1)` with `hueShift = 1/3` over `ℚ`. -/
theorem hue_stays_on_wheel_witness :
    ((0 : ℚ) ≤ 1 / 2 ∧ (1 / 2 : ℚ) ≤ 1) ∧ ((0 : ℚ) ≤ 1 / 4 ∧ (1 / 4 : ℚ) ≤ 1) ∧
      ((0 : ℚ) ≤ 0 ∧ (0 : ℚ) ≤ 1) ∧
      (0 ≤ (rgbToHsv (⟨1 / 2, 1 / 4, 0, 1⟩ : Vec4 ℚ).rgb).x ∧
        (rgbToHsv (⟨1 / 2, 1 / 4, 0, 1⟩ : Vec4 ℚ).rgb).x < 1) ∧
      (0 ≤ shiftedHue (1 / 3) (⟨1 / 2, 1 / 4, 0, 1⟩ : Vec4 ℚ) ∧
        shiftedHue (1 / 3) (⟨1 / 2, 1 / 4, 0, 1⟩ : Vec4 ℚ) < 1) :=
  have h := hue_stays_on_wheel (⟨1 / 2, 1 / 4, 0, 1⟩ : Vec4 ℚ) (1 / 3)
    (by norm_num) (by norm_num) (by norm_num)
  ⟨by norm_num, by norm_num, by norm_num, h.1, h.2.2.1⟩

/-- C4, at the gray `(1/2, 1/2, 1/2, 1)` with `hueShift = 1/3` over `ℚ`. -/
theorem gray_fixed_witness :
    ((0 : ℚ) ≤ 1 / 2 ∧ (1 / 2 : ℚ) ≤ 1) ∧
      rgbToHsv_hueDen (⟨1 / 2, 1 / 2, 1 / 2, 1⟩ : Vec4 ℚ).rgb ≠ 0 ∧
      rgbToHsv_satDen (⟨1 / 2, 1 / 2, 1 / 2, 1⟩ : Vec4 ℚ).rgb ≠ 0 ∧
      (rgbToHsv (⟨1 / 2, 1 / 2, 1 / 2, 1⟩ : Vec4 ℚ).rgb).y = 0 ∧
      colorFilterMain (1 / 3) (⟨1 / 2, 1 / 2, 1 / 2, 1⟩ : Vec4 ℚ) =
        ⟨1 / 2, 1 / 2, 1 / 2, 1⟩ :=
  ⟨by norm_num, gray_fixed (1 / 2 : ℚ) 1 (1 / 3) (by norm_num) (by norm_num)⟩

/-- C10, at the colour `(1/2, 1/4, 0, 1)` with `hueShift = 1/3` over `ℚ`. -/
theorem hueShift_preserves_value_witness :
    ((0 : ℚ) ≤ 1 / 2 ∧ (1 / 2 : ℚ) ≤ 1) ∧ ((0 : ℚ) ≤ 1 / 4 ∧ (1 / 4 : ℚ) ≤ 1) ∧
      ((0 : ℚ) ≤ 0 ∧ (0 : ℚ) ≤ 1) ∧
      max (colorFilterMain (1 / 3) (⟨1 / 2, 1 / 4, 0, 1⟩ : Vec4 ℚ)).x
        (max (colorFilterMain (1 / 3) (⟨1 / 2, 1 / 4, 0, 1⟩ : Vec4 ℚ)).y
          (colorFilterMain (1 / 3) (⟨1 / 2, 1 / 4, 0, 1⟩ : Vec4 ℚ)).z) =
        max (1 / 2 : ℚ) (max (1 / 4) 0) ∧
      (colorFilterMain (1 / 3) (⟨1 / 2, 1 / 4, 0, 1⟩ : Vec4 ℚ)).w = 1 :=
  have h := hueShift_preserves_value (⟨1 / 2, 1 / 4, 0, 1⟩ : Vec4 ℚ) (1 / 3)
    (by norm_num) (by norm_num) (by norm_num)
  ⟨by norm_num, by norm_num, by norm_num, h.1, h.2.2.2.2⟩

end Claims

/-! ## The specification's properties: the frame driver -/

section Driver

/-- C5: for every elapsed time `t`, the uniform `0.5 * (sin(t) + 1)` computed
in the render loop lies in `[0,1]`. -/
theorem hueShift_bounds (t : ℝ) :
    hueShift Real.sin t = 0.5 * (Real.sin t + 1) ∧
      0 ≤ hueShift Real.sin t ∧ hueShift Real.sin t ≤ 1 := by
  have h1 := Real.neg_one_le_sin t
  have h2 := Real.sin_le_one t
  have h : hueShift Real.sin t = 0.5 * (Real.sin t + 1) := by
    unfold hueShift; rw [lit_one]
  refine ⟨h, ?_, ?_⟩
  · rw [h]; norm_num; linarith
  · rw [h]; norm_num; linarith

/-- C9: for the opaque pure-red texel `(255,0,0,255)`, i.e. the colour
`(1,0,0,1)`, the grayscale output stored in 8 bits is `(76,76,76,255)`, the
uniform at time `0` is `0.5`, and the hue-shift output for that uniform stored
in 8 bits is cyan, `(0,255,255,255)`. -/
theorem red_scenario :
    (dequantize ⟨255, 0, 0, 255⟩ : Vec4 ℝ) = ⟨1, 0, 0, 1⟩ ∧
      quantize (grayscaleMain (dequantize ⟨255, 0, 0, 255⟩ : Vec4 ℝ)) = ⟨76, 76, 76, 255⟩ ∧
      hueShift Real.sin 0 = 0.5 ∧
      quantize (colorFilterMain (hueShift Real.sin 0) (dequantize ⟨255, 0, 0, 255⟩ : Vec4 ℝ)) =
        ⟨0, 255, 255, 255⟩ := by
  have hred : (dequantize ⟨255, 0, 0, 255⟩ : Vec4 ℝ) = ⟨1, 0, 0, 1⟩ := by
    simp [dequantize, fromUnorm8]
  have hshift : hueShift Real.sin 0 = 1 / 2 := by
    unfold hueShift; rw [Real.sin_zero]; norm_num
  have he : (0 : ℝ) < rgbToHsv_e := rgbToHsv_e_pos
  have hone : toUnorm8 (1 : ℝ) = 255 :=
    toUnorm8_eq (by norm_num) (by norm_num) (by push_cast; norm_num) (by push_cast; norm_num)
  have hgray : toUnorm8 (0.299 : ℝ) = 76 :=
    toUnorm8_eq (by norm_num) (by norm_num) (by push_cast; norm_num) (by push_cast; norm_num)
  have hres : toUnorm8 (1 - 1 / (1 + rgbToHsv_e) : ℝ) = 0 := by
    have hval : (1 - 1 / (1 + rgbToHsv_e) : ℝ) = 1 / 10000000001 := by
      unfold rgbToHsv_e; norm_num
    rw [hval]
    exact toUnorm8_eq (by norm_num) (by norm_num) (by push_cast; norm_num)
      (by push_cast; norm_num)
  refine ⟨hred, ?_, by rw [hshift]; norm_num, ?_⟩
  · rw [hred, grayscaleMain_red]
    simp only [quantize, hone, hgray]
  · rw [hred, hshift, colorFilterMain_red]
    simp only [quantize, hone, hres]

variable {α : Type} [LinearOrderedField α]

/-- C6: in every iteration of the render loop the draws that land on the
window use, in order, the rectangles `(0,0,600,600)`, `(600,0,300,600)` and
`(900,0,300,600)`; their column ranges are `[0,600)`, `[600,900)` and
`[900,1200)`, pairwise disjoint and contiguous, their widths sum to the window
width `1200`, and each has `y = 0` and the window height `600`. -/
theorem viewport_partition (sin : α → α) (width height : Int) (time : α) (vp : Viewport) :
    ∃ left middle right : Viewport,
      screenDraws ⟨Framebuffer.screen, vp⟩ (frameBody sin width height time) =
        [left, middle, right] ∧
      left = ⟨0, 0, 600, 600⟩ ∧ middle = ⟨600, 0, 300, 600⟩ ∧ right = ⟨900, 0, 300, 600⟩ ∧
      (∀ p, left.coversColumn p ↔ 0 ≤ p ∧ p < 600) ∧
      (∀ p, middle.coversColumn p ↔ 600 ≤ p ∧ p < 900) ∧
      (∀ p, right.coversColumn p ↔ 900 ≤ p ∧ p < 1200) ∧
      (∀ p, ¬ (left.coversColumn p ∧ middle.coversColumn p)) ∧
      (∀ p, ¬ (left.coversColumn p ∧ right.coversColumn p)) ∧
      (∀ p, ¬ (middle.coversColumn p ∧ right.coversColumn p)) ∧
      left.x = 0 ∧ left.x + left.width = middle.x ∧
      middle.x + middle.width = right.x ∧ right.x + right.width = windowWidth ∧
      left.width + middle.width + right.width = windowWidth ∧ windowWidth = 1200 ∧
      (left.y = 0 ∧ middle.y = 0 ∧ right.y = 0) ∧
      (left.height = windowHeight ∧ middle.height = windowHeight ∧
        right.height = windowHeight) ∧ windowHeight = 600 := by
  refine ⟨⟨0, 0, 600, 600⟩, ⟨600, 0, 300, 600⟩, ⟨900, 0, 300, 600⟩, ?_, rfl, rfl, rfl,
    ?_, ?_, ?_, ?_, ?_, ?_, rfl, rfl, rfl, rfl, rfl, rfl, ⟨rfl, rfl, rfl⟩,
    ⟨rfl, rfl, rfl⟩, rfl⟩
  · simp [frameBody, clearScreen, renderOriginal, renderGrayscale, renderColorFilter,
      swapAndPoll, screenDraws]
  all_goals intro p; simp only [Viewport.coversColumn]; omega

/-- Iterations in which neither the escape key nor a close request is seen run
whole, and the loop goes on with the flag still clear. -/
theorem renderLoop_append (sin : α → α) (width height : Int)
    (pre rest : List (FrameInput α))
    (hpre : ∀ g ∈ pre, g.escapePressed = false ∧ g.closeRequested = false) :
    renderLoop sin width height false (pre ++ rest) =
      ((pre.map (iteration sin width height)).flatten ++
          (renderLoop sin width height false rest).1,
        (renderLoop sin width height false rest).2) := by
  induction pre with
  | nil => simp
  | cons g pre ih =>
    have hg := hpre g (List.mem_cons_self _ _)
    have ih := ih (fun x hx => hpre x (List.mem_cons_of_mem _ hx))
    simp [renderLoop, hg.1, hg.2, ih]

/-- Once the close flag is set the loop makes no further call. -/
theorem renderLoop_closed (sin : α → α) (width height : Int) (rest : List (FrameInput α)) :
    renderLoop sin width height true rest = ([], true) := by
  cases rest <;> simp [renderLoop]

/-- The calls of the render loop are always a run of whole iterations. -/
theorem renderLoop_whole_iterations (sin : α → α) (width height : Int)
    (inputs : List (FrameInput α)) (shouldClose : Bool) :
    ∃ n, n ≤ inputs.length ∧
      (renderLoop sin width height shouldClose inputs).1 =
        ((inputs.take n).map (iteration sin width height)).flatten := by
  induction inputs generalizing shouldClose with
  | nil => exact ⟨0, by simp [renderLoop]⟩
  | cons f rest ih =>
    cases shouldClose with
    | true => exact ⟨0, by simp [renderLoop]⟩
    | false =>
      obtain ⟨n, hn, h⟩ := ih (false || f.escapePressed || f.closeRequested)
      refine ⟨n + 1, by simpa using hn, ?_⟩
      simp only [renderLoop, Bool.false_eq_true, if_false, List.take_succ_cons, List.map_cons,
        List.flatten_cons]
      rw [h]

/-- C7 (as the code behaves): with every start-up step successful and the
framebuffer reported incomplete, `main` prints the error line, enters the
render loop, draws the frame and returns `0`. -/
theorem incomplete_framebuffer_still_renders (sin : α → α) (t : α) :
    main sin ⟨true, true, true, some (2, 2, 4), false, [⟨false, t, true⟩]⟩ =
        ⟨[Call.print Message.openGLVersion, Call.glBindFramebuffer Framebuffer.fbo,
            Call.print Message.framebufferNotComplete,
            Call.glBindFramebuffer Framebuffer.screen] ++
          frameBody sin 2 2 t ++ cleanup, some 0⟩ ∧
      Call.glDrawArrays ∈
        (main sin ⟨true, true, true, some (2, 2, 4), false, [⟨false, t, true⟩]⟩).calls ∧
      (main sin ⟨true, true, true, some (2, 2, 4), false, [⟨false, t, true⟩]⟩).returned ≠
        some (-1) := by
  have h : main sin ⟨true, true, true, some (2, 2, 4), false, [⟨false, t, true⟩]⟩ =
      ⟨[Call.print Message.openGLVersion, Call.glBindFramebuffer Framebuffer.fbo,
          Call.print Message.framebufferNotComplete,
          Call.glBindFramebuffer Framebuffer.screen] ++
        frameBody sin 2 2 t ++ cleanup, some 0⟩ := by
    simp [main, renderLoop, iteration, processInput]
  refine ⟨h, ?_, ?_⟩
  · rw [h]
    simp [frameBody, renderOriginal]
  · rw [h]
    simp

/-- C8: when the escape key is seen pressed in an iteration reached with the
close flag clear, that iteration sets the flag and still runs clear, direct
pass, grayscale pass, hue-shift pass and present in this order, the loop is
then left without a call from any later iteration, and `main` goes on to its
clean-up; whatever the inputs, the calls of the loop are a run of whole
iterations. -/
theorem escape_closes_at_frame_boundary (sin : α → α) (width height : Int)
    (pre : List (FrameInput α)) (f : FrameInput α) (rest : List (FrameInput α))
    (hpre : ∀ g ∈ pre, g.escapePressed = false ∧ g.closeRequested = false)
    (hf : f.escapePressed = true) :
    renderLoop sin width height false (pre ++ f :: rest) =
        ((pre.map (iteration sin width height)).flatten ++
          (Call.glfwSetWindowShouldClose ::
            (clearScreen ++ renderOriginal ++ renderGrayscale width height ++
              renderColorFilter sin width height f.time ++ swapAndPoll)), true) ∧
      (∀ (inputs : List (FrameInput α)) (shouldClose : Bool),
        ∃ n, n ≤ inputs.length ∧
          (renderLoop sin width height shouldClose inputs).1 =
            ((inputs.take n).map (iteration sin width height)).flatten) := by
  refine ⟨?_, fun inputs shouldClose =>
    renderLoop_whole_iterations sin width height inputs shouldClose⟩
  rw [renderLoop_append sin width height pre (f :: rest) hpre]
  simp [renderLoop, hf, renderLoop_closed, iteration, processInput, frameBody]

/-- C8, at one quiet iteration followed by an iteration with the escape key
pressed and one more recorded input, over `ℚ`. -/
theorem escape_closes_at_frame_boundary_witness :
    renderLoop (fun _ => (0 : ℚ)) 2 2 false
        ([⟨false, 0, false⟩] ++ ⟨true, 1, false⟩ :: [⟨false, 2, false⟩]) =
      (([(⟨false, 0, false⟩ : FrameInput ℚ)].map (iteration (fun _ => (0 : ℚ)) 2 2)).flatten ++
        (Call.glfwSetWindowShouldClose ::
          (clearScreen ++ renderOriginal ++ renderGrayscale 2 2 ++
            renderColorFilter (fun _ => (0 : ℚ)) 2 2 1 ++ swapAndPoll)), true) :=
  (escape_closes_at_frame_boundary (fun _ => (0 : ℚ)) 2 2 [⟨false, 0, false⟩]
    ⟨true, 1, false⟩ [⟨false, 2, false⟩] (by simp) rfl).1

end Driver

end GrayScale
